import Mathlib

/-!
Verification of the gmail-to-telegram bridge (`src/main.py`) against its
natural-language specification.

The embedding models Python strings as Lean `String`s (sequences of Unicode
code points, matching Python `len`/slicing semantics), byte payloads as
`List Nat`, and the Python codec registry as an explicit environment
(`Codecs`): looking a charset name up may fail (Python `LookupError`), and a
codec offers both strict decoding (which may fail, Python
`UnicodeDecodeError`) and `errors='ignore'` decoding (which always returns a
string).  A raised-and-uncaught Python exception is modelled as `none` /
`Option`-failure.  The `html2text` library is modelled as an opaque function
parameter `h2t`.  The main loop `run_bot` is modelled as a trace-producing
function over an oracle environment (`CycleEnv`) that decides the outcome of
each IMAP operation; its observable actions become events (`Ev`).
-/

namespace GmailBot

/-- Byte sequences (Python `bytes`), as lists of naturals. -/
abbrev ByteSeq := List Nat

/-- A registered codec: `strict` models `bytes.decode(cs)` (may raise, hence
`Option`), `ignoreErrors` models `bytes.decode(cs, errors='ignore')` (total). -/
structure Codec where
  strict : ByteSeq → Option String
  ignoreErrors : ByteSeq → String

/-- The codec registry: charset name to codec; `none` models Python's
`LookupError` for an unknown encoding name. -/
def Codecs := String → Option Codec

/-- Python `x if x else 'utf-8'` / `x or 'utf-8'` applied to an optional
charset name: both `None` and the empty string fall back to `"utf-8"`. -/
def pyOrUtf8 : Option String → String
  | none => "utf-8"
  | some s => if s = "" then "utf-8" else s

/-- One chunk returned by `email.header.decode_header`, as used at index `[0]`
in `parse_email`: either an already-decoded `str`, or raw bytes together with
the declared charset (or `None`). -/
inductive HeaderChunk where
  | str (s : String)
  | bytes (b : ByteSeq) (enc : Option String)

/-- Lines 75-82 of `main.py`: `if isinstance(x, bytes): x = x.decode(encoding
if encoding else 'utf-8')`.  Strict decoding: an unknown charset or a decode
error raises (modelled as `none`), and nothing in `parse_email` catches it. -/
def decodeHeaderChunk (c : Codecs) : HeaderChunk → Option String
  | .str s => some s
  | .bytes b enc =>
    match c (pyOrUtf8 enc) with
    | none => none
    | some codec => codec.strict b

/-- One node of an email MIME tree: a leaf part with a content type, declared
charset and payload (`none` payload models `get_payload(decode=True)`
returning `None`), or a multipart container. -/
inductive EmailPart where
  | leaf (contentType : String) (charset : Option String) (payload : Option ByteSeq)
  | multi (contentType : String) (parts : List EmailPart)

/-- `part.get_content_type()`. -/
def partCT : EmailPart → String
  | .leaf ct _ _ => ct
  | .multi ct _ => ct

/-- Lines 92-93 / 98-99 / 105-106 of `main.py`:
`part.get_payload(decode=True).decode(part.get_content_charset() or 'utf-8',
errors='ignore')` wrapped in `try/except`.  `none` models the caught
exception (payload `None`, or unknown charset): the surrounding body variable
is then left unchanged. -/
def decodePart (c : Codecs) (charset : Option String) (payload : Option ByteSeq) :
    Option String :=
  match payload with
  | none => none
  | some b =>
    match c (pyOrUtf8 charset) with
    | none => none
    | some codec => some (codec.ignoreErrors b)

/-- Payload decoding attempt for a walked part; a multipart container's
`get_payload(decode=True)` is `None`, so decoding it always fails. -/
def partDecode (c : Codecs) : EmailPart → Option String
  | .leaf _ cs p => decodePart c cs p
  | .multi _ _ => none

mutual

/-- `msg.walk()`: depth-first pre-order traversal of the MIME tree, the node
itself first. -/
def walk : EmailPart → List EmailPart
  | .leaf ct cs p => [.leaf ct cs p]
  | .multi ct parts => .multi ct parts :: walkList parts

/-- Traversal of a list of sibling parts, in order. -/
def walkList : List EmailPart → List EmailPart
  | [] => []
  | p :: rest => walk p ++ walkList rest

end

/-- The body of the `for part in msg.walk()` loop (lines 88-101 of `main.py`):
state is the pair `(body_plain, body_html)`.  A `text/plain` part is decoded
only while `body_plain` is still empty (Python truthiness), an HTML part only
while `body_html` is still empty; a caught decode exception leaves the state
unchanged. -/
def scanStep (c : Codecs) (acc : String × String) (p : EmailPart) : String × String :=
  if partCT p = "text/plain" ∧ acc.1 = "" then
    match partDecode c p with
    | some s => (s, acc.2)
    | none => acc
  else if partCT p = "text/html" ∧ acc.2 = "" then
    match partDecode c p with
    | some s => (acc.1, s)
    | none => acc
  else acc

/-- Folding `scanStep` over the walked part list. -/
def scanParts (c : Codecs) : List EmailPart → String × String → String × String
  | [], acc => acc
  | p :: rest, acc => scanParts c rest (scanStep c acc p)

/-- Lines 85-108 of `main.py`: compute `(body_plain, body_html)`.  A multipart
message is walked part by part; a non-multipart message decodes its single
payload directly into `body_plain` (empty on a caught exception). -/
def bodyPair (c : Codecs) : EmailPart → String × String
  | .multi ct parts => scanParts c (walk (.multi ct parts)) ("", "")
  | .leaf _ cs p => ((decodePart c cs p).getD "", "")

/-- A fetched message as `parse_email` consumes it: the first chunk of the
decoded Subject header, the first chunk of the decoded From header, and the
MIME body tree. -/
structure EmailMsg where
  subject : HeaderChunk
  sender : HeaderChunk
  body : EmailPart

/-- Python `str.strip()` on the code-point sequence: drop whitespace from both
ends. -/
def pyStrip (s : String) : String :=
  ⟨(((s.data.dropWhile Char.isWhitespace).reverse).dropWhile Char.isWhitespace).reverse⟩

/-- Python `s[:n]`: the first `n` code points. -/
def pyTake (s : String) (n : Nat) : String :=
  ⟨s.data.take n⟩

/-- Lines 120-123 of `main.py`: the fixed message template.  The body is
`str.strip()`ped and wrapped in triple-backtick block markers. -/
def formatMessage (sender subject finalBody : String) : String :=
  "**Новое письмо**\n\n" ++ ("**От:** " ++ sender ++ "\n") ++
    ("**Тема:** " ++ subject ++ "\n\n") ++ ("```" ++ pyStrip finalBody ++ "```")

/-- Lines 125-128 of `main.py`: if the assembled text exceeds 4096 characters,
return its first 4090 characters followed by the literal five-character
suffix newline, three dots, one backtick. -/
def truncateMessage (s : String) : String :=
  if s.length > 4096 then pyTake s 4090 ++ "\n...`" else s

/-- `parse_email` up to but not including the truncation step: decode the two
headers strictly (an exception propagates, hence `Option`), select the body
(`body_plain` if non-empty, else the `html2text` rendering of `body_html` if
that is non-empty, else empty), and assemble the template. -/
def assembleMessage (c : Codecs) (h2t : String → String) (msg : EmailMsg) :
    Option String := do
  let subject ← decodeHeaderChunk c msg.subject
  let sender ← decodeHeaderChunk c msg.sender
  let bodies := bodyPair c msg.body
  let finalBody := if bodies.1 ≠ "" then bodies.1
    else if bodies.2 ≠ "" then h2t bodies.2 else ""
  some (formatMessage sender subject finalBody)

/-- Lines 69-128 of `main.py`: `parse_email`.  `none` models an uncaught
exception escaping to the per-message handler in `run_bot`. -/
def parse_email (c : Codecs) (h2t : String → String) (msg : EmailMsg) :
    Option String :=
  (assembleMessage c h2t msg).map truncateMessage

/-- Observable actions of one poll cycle of `run_bot`, in program order.  Log
events are kept only where a claim mentions them. -/
inductive Ev where
  | connectOk
  | connectFail
  | search
  | searchErrLog
  | cycleErrLog
  | fetch (id : Nat)
  | fetchErrLog (id : Nat)
  | send (chat : String) (text : String)
  | sendErrLog (chat : String)
  | store (id : Nat)
  | msgErrLog (id : Nat)
  | logout
  | sleep
deriving DecidableEq

/-- Outcome oracle for the Telegram sender: whether
`bot.send_message(chat, text)` succeeds. -/
structure SendEnv where
  ok : String → String → Bool

/-- Lines 131-139 of `main.py`: `send_to_telegram`.  Entries that are the
empty string are skipped (`if not chat_id: continue`); every other entry is
stripped and a send is attempted; a per-recipient failure is logged and the
loop continues.  The function itself never raises. -/
def send_to_telegram (senv : SendEnv) (chatIds : List String) (text : String) :
    List Ev :=
  match chatIds with
  | [] => []
  | c :: rest =>
    if c = "" then send_to_telegram senv rest text
    else
      Ev.send (pyStrip c) text ::
        ((if senv.ok (pyStrip c) text then [] else [Ev.sendErrLog (pyStrip c)]) ++
          send_to_telegram senv rest text)

/-- Result of one Python call: a normal return, or a raised exception
(`isAbort` marks `imaplib.IMAP4.abort`). -/
inductive PyResult (α : Type) where
  | ok (a : α)
  | exn (isAbort : Bool)

/-- Oracle environment for one poll cycle: outcomes of the IMAP operations,
the send oracle, the codec registry and the `html2text` rendering. -/
structure CycleEnv where
  connect : Bool
  searchRes : PyResult (String × List Nat)
  fetchRes : Nat → PyResult (String × EmailMsg)
  storeRes : Nat → PyResult Unit
  send : SendEnv
  codecs : Codecs
  h2t : String → String

/-- Whether the dispatch step completes for message `id` in environment
`env`: the fetch returns with status `OK` and `parse_email` returns normally
(in which case `send_to_telegram` always returns). -/
def dispatchOk (env : CycleEnv) (id : Nat) : Bool :=
  match env.fetchRes id with
  | .exn _ => false
  | .ok (st, msg) => st = "OK" && (parse_email env.codecs env.h2t msg).isSome

/-- Lines 165-176 of `main.py`: the body of the per-message loop, wrapped in
its own `try/except`.  Fetch; on status `OK` parse, dispatch, then mark read
via `store`; a raised exception from fetch, parse or store is caught and
logged, and a non-`OK` fetch status is logged. -/
def processMessage (env : CycleEnv) (chatIds : List String) (id : Nat) :
    List Ev :=
  match env.fetchRes id with
  | .exn _ => [Ev.fetch id, Ev.msgErrLog id]
  | .ok (st, msg) =>
    if st = "OK" then
      match parse_email env.codecs env.h2t msg with
      | none => [Ev.fetch id, Ev.msgErrLog id]
      | some text =>
        match env.storeRes id with
        | .ok _ =>
          Ev.fetch id :: (send_to_telegram env.send chatIds text ++ [Ev.store id])
        | .exn _ =>
          Ev.fetch id ::
            (send_to_telegram env.send chatIds text ++ [Ev.store id, Ev.msgErrLog id])
    else [Ev.fetch id, Ev.fetchErrLog id]

/-- The `for email_id in reversed(email_id_list)` loop applied to an
already-reversed identifier list. -/
def processList (env : CycleEnv) (chatIds : List String) : List Nat → List Ev
  | [] => []
  | id :: rest => processMessage env chatIds id ++ processList env chatIds rest

/-- Lines 146-194 of `main.py`: one iteration of the `while True` loop.
Connect failure sleeps inside the `try` and restarts.  A raised search
exception falls to the top-level handler, then the `finally` logout, then the
sleep.  A non-`OK` search status logs an error and executes `continue`: the
`finally` logout still runs, but the trailing sleep is skipped.  Otherwise
the identifier list is processed newest-first, then logout and sleep. -/
def cycle (env : CycleEnv) (chatIds : List String) : List Ev :=
  if env.connect = false then [Ev.connectFail, Ev.sleep]
  else
    match env.searchRes with
    | .exn _ => [Ev.connectOk, Ev.search, Ev.cycleErrLog, Ev.logout, Ev.sleep]
    | .ok (st, ids) =>
      if st = "OK" then
        Ev.connectOk :: Ev.search ::
          (processList env chatIds ids.reverse ++ [Ev.logout, Ev.sleep])
      else [Ev.connectOk, Ev.search, Ev.searchErrLog, Ev.logout]

/-- The recipients to whom a send was attempted, in order. -/
def sentChats (t : List Ev) : List String :=
  t.filterMap fun e => match e with | .send c _ => some c | _ => none

/-- The identifiers passed to `mail.fetch`, in order. -/
def fetchedIds (t : List Ev) : List Nat :=
  t.filterMap fun e => match e with | .fetch i => some i | _ => none

/-- The identifiers passed to `mail.store` (the read-flag update), in order. -/
def storedIds (t : List Ev) : List Nat :=
  t.filterMap fun e => match e with | .store i => some i | _ => none

/-- A concrete decoder used to instantiate the codec environment in the
witnesses: each byte below 128 becomes the character with that code point. -/
def asciiDecode (b : ByteSeq) : String :=
  ⟨b.map Char.ofNat⟩

/-- Strict decoding for the concrete codec: fails on any byte ≥ 128 (as UTF-8
strict decoding fails on the byte `0xFF`). -/
def asciiStrict (b : ByteSeq) : Option String :=
  if b.all (fun x => x < 128) then some (asciiDecode b) else none

/-- Concrete codec registry for witnesses: only `"utf-8"` is registered. -/
def demoCodecs : Codecs := fun name =>
  if name = "utf-8" then
    some ⟨asciiStrict, fun b => asciiDecode (b.filter (fun x => x < 128))⟩
  else none

/-- Concrete `html2text` rendering for witnesses. -/
def demoH2t : String → String := fun s => "[html] " ++ s

/-- A small message: plain string headers, a single non-multipart part whose
payload retrieval fails (so the body is empty). -/
def msgSimple : EmailMsg :=
  ⟨.str "S", .str "A", .leaf "text/plain" none none⟩

/-- A 5000-character subject, to drive the assembled message over the cap. -/
def bigS : String := ⟨List.replicate 5000 'a'⟩

/-- A message whose assembled text exceeds 4096 characters. -/
def msgBig : EmailMsg :=
  ⟨.str bigS, .str "A", .leaf "text/plain" none none⟩

/-- The assembled (pre-truncation) text of `msgBig`. -/
def bigAssembled : String := formatMessage "A" bigS ""

/-- A plain-text part that decodes to the empty string. -/
def plainEmptyPart : EmailPart := .leaf "text/plain" none (some [])

/-- An HTML part decoding to `"hi"` under `demoCodecs`. -/
def htmlPart1 : EmailPart := .leaf "text/html" none (some [104, 105])

/-- An HTML part decoding to `"ho"` under `demoCodecs`. -/
def htmlPart2 : EmailPart := .leaf "text/html" none (some [104, 111])

/-- Multipart message: empty-decoding plain part, then `htmlPart1`. -/
def msgHtmlA : EmailMsg :=
  ⟨.str "S", .str "A", .multi "multipart/alternative" [plainEmptyPart, htmlPart1]⟩

/-- Same as `msgHtmlA` except for the HTML part's payload. -/
def msgHtmlB : EmailMsg :=
  ⟨.str "S", .str "A", .multi "multipart/alternative" [plainEmptyPart, htmlPart2]⟩

/-- Multipart message with a non-empty plain part and an HTML part. -/
def msgPlainHtml : EmailMsg :=
  ⟨.str "S", .str "A",
    .multi "multipart/alternative" [.leaf "text/plain" none (some [104, 105]), htmlPart1]⟩

/-- String length distributes over append (on the code-point lists). -/
theorem string_length_append (s t : String) : (s ++ t).length = s.length + t.length := by
  show (s.data ++ t.data).length = s.data.length + t.data.length
  exact List.length_append s.data t.data

/-- Length of a Python slice `s[:n]`. -/
theorem pyTake_length (s : String) (n : Nat) : (pyTake s n).length = min n s.length := by
  show (s.data.take n).length = min n s.data.length
  exact List.length_take n s.data

/-- Stripping the empty string yields the empty string. -/
theorem pyStrip_empty : pyStrip "" = "" := rfl

/-- Length of the assembled template in terms of its variable pieces: the
fixed template text contributes 45 characters. -/
theorem formatMessage_length (s u b : String) :
    (formatMessage s u b).length = 45 + s.length + u.length + (pyStrip b).length := by
  simp only [formatMessage, string_length_append]
  have h1 : ("**Новое письмо**\n\n" : String).length = 18 := rfl
  have h2 : ("**От:** " : String).length = 8 := rfl
  have h3 : ("\n" : String).length = 1 := rfl
  have h4 : ("**Тема:** " : String).length = 10 := rfl
  have h5 : ("\n\n" : String).length = 2 := rfl
  have h6 : ("```" : String).length = 3 := rfl
  omega

/-- The truncation step never returns more than 4096 characters. -/
theorem truncateMessage_length_le (s : String) : (truncateMessage s).length ≤ 4096 := by
  unfold truncateMessage
  split
  · rw [string_length_append, pyTake_length]
    have h5 : ("\n...`" : String).length = 5 := rfl
    have hm := Nat.min_le_left 4090 s.length
    omega
  · omega

/-- The oversized subject has 5000 characters. -/
theorem bigS_length : bigS.length = 5000 := by
  show (List.replicate 5000 'a').length = 5000
  exact List.length_replicate 5000 'a'

/-- The assembled text of `msgBig` has 5046 characters. -/
theorem bigAssembled_length : bigAssembled.length = 5046 := by
  show (formatMessage "A" bigS "").length = 5046
  rw [formatMessage_length, bigS_length, pyStrip_empty]
  rfl

/-- C3: for every raw message, any string returned by `parse_email` has
length at most 4096 characters, in both the truncated and the untruncated
case. -/
theorem c3_length_le (c : Codecs) (h2t : String → String) (msg : EmailMsg) (s : String)
    (h : parse_email c h2t msg = some s) : s.length ≤ 4096 := by
  obtain ⟨t, _, ht⟩ := Option.map_eq_some'.1 h
  rw [← ht]
  exact truncateMessage_length_le t

/-- Witness for C3 at a concrete message. -/
theorem c3_witness : (truncateMessage (formatMessage "A" "S" "")).length ≤ 4096 :=
  c3_length_le demoCodecs demoH2t msgSimple _ rfl

/-- C2 amended: when the assembled text exceeds 4096 characters, the output
of `parse_email` is its first 4090 characters followed by the five-character
suffix newline, three dots, single backtick — so its length is exactly 4095
(not 4096), and it ends in a lone backtick rather than the triple-backtick
closing marker. -/
theorem c2_truncation_amended (c : Codecs) (h2t : String → String) (msg : EmailMsg)
    (t : String) (h : assembleMessage c h2t msg = some t) (hl : t.length > 4096) :
    parse_email c h2t msg = some (pyTake t 4090 ++ "\n...`") ∧
      (pyTake t 4090 ++ "\n...`").length = 4095 := by
  constructor
  · rw [parse_email, h, Option.map_some']
    rw [truncateMessage, if_pos hl]
  · rw [string_length_append, pyTake_length]
    have h5 : ("\n...`" : String).length = 5 := rfl
    have hmin : min 4090 t.length = 4090 := Nat.min_eq_left (by omega)
    omega

/-- Witness for the amended C2 at the concrete oversized message. -/
theorem c2_witness :
    parse_email demoCodecs demoH2t msgBig = some (pyTake bigAssembled 4090 ++ "\n...`") ∧
      (pyTake bigAssembled 4090 ++ "\n...`").length = 4095 :=
  c2_truncation_amended demoCodecs demoH2t msgBig bigAssembled rfl
    (by rw [bigAssembled_length]; omega)

/-- C2 counterexample: on a message whose assembled text exceeds the cap, the
output of `parse_email` has length 4095, not 4096 as the claim states. -/
theorem c2_counterexample :
    (parse_email demoCodecs demoH2t msgBig).map String.length = some 4095 ∧
      (4095 : Nat) ≠ 4096 := by
  refine ⟨?_, by omega⟩
  have h1 : parse_email demoCodecs demoH2t msgBig = some (truncateMessage bigAssembled) := rfl
  have h2 : truncateMessage bigAssembled = pyTake bigAssembled 4090 ++ "\n...`" := by
    rw [truncateMessage, if_pos]
    rw [bigAssembled_length]; omega
  rw [h1, Option.map_some', h2, string_length_append, pyTake_length, bigAssembled_length]
  rfl

/-- Projection: a send event contributes its recipient. -/
theorem sentChats_cons_send (c t : String) (l : List Ev) :
    sentChats (Ev.send c t :: l) = c :: sentChats l := rfl

/-- Projection: a send-error log contributes nothing. -/
theorem sentChats_cons_errlog (c : String) (l : List Ev) :
    sentChats (Ev.sendErrLog c :: l) = sentChats l := rfl

/-- The attempted recipients of one dispatch are exactly the non-empty
configured entries, stripped, in order — for every outcome oracle. -/
theorem sentChats_send (senv : SendEnv) (ids : List String) (text : String) :
    sentChats (send_to_telegram senv ids text) =
      (ids.filter (fun c => !(c == ""))).map pyStrip := by
  induction ids with
  | nil => rfl
  | cons c rest ih =>
    rw [send_to_telegram]
    by_cases hc : c = ""
    · rw [if_pos hc, ih, hc]
      rfl
    · rw [if_neg hc, sentChats_cons_send]
      have hX : sentChats ((if senv.ok (pyStrip c) text = true then ([] : List Ev)
          else [Ev.sendErrLog (pyStrip c)]) ++ send_to_telegram senv rest text) =
          sentChats (send_to_telegram senv rest text) := by
        by_cases hok : senv.ok (pyStrip c) text = true
        · rw [if_pos hok]
          rfl
        · rw [if_neg hok]
          exact sentChats_cons_errlog _ _
      rw [hX, ih]
      have hb : (c == "") = false := beq_eq_false_iff_ne.2 hc
      simp [List.filter_cons, hb]

/-- C7: for a recipient list containing a blank (empty) entry, the dispatcher
attempts exactly the non-blank entries, each once, in order; and the set of
attempts does not depend on the send-outcome oracle, so one recipient's
failure never prevents the remaining attempts. -/
theorem c7_dispatch_blank (senv senv' : SendEnv) (ids : List String) (text : String)
    (hblank : "" ∈ ids) :
    sentChats (send_to_telegram senv ids text) =
        (ids.filter (fun c => !(c == ""))).map pyStrip ∧
      sentChats (send_to_telegram senv ids text) =
        sentChats (send_to_telegram senv' ids text) :=
  ⟨sentChats_send senv ids text,
    (sentChats_send senv ids text).trans (sentChats_send senv' ids text).symm⟩

/-- Concrete all-fail send oracle. -/
def senvFail : SendEnv := ⟨fun _ _ => false⟩

/-- Concrete all-succeed send oracle. -/
def senvOk : SendEnv := ⟨fun _ _ => true⟩

/-- Witness for C7: one blank entry, one failing oracle, one succeeding
oracle. -/
theorem c7_witness :
    sentChats (send_to_telegram senvFail ["", " a ", "b"] "t") =
        ((["", " a ", "b"] : List String).filter (fun c => !(c == ""))).map pyStrip ∧
      sentChats (send_to_telegram senvFail ["", " a ", "b"] "t") =
        sentChats (send_to_telegram senvOk ["", " a ", "b"] "t") :=
  c7_dispatch_blank senvFail senvOk ["", " a ", "b"] "t" (by decide)

/-- C10: every attempted identifier is stripped before the send call, and a
whitespace-only entry is not skipped by the blank check (which tests the
unstripped string), so a send is attempted with the empty string as
recipient. -/
theorem c10_strip_unstripped_blank (senv : SendEnv) (ids : List String) (text w : String)
    (hw : w ∈ ids) (hne : w ≠ "") (hws : pyStrip w = "") :
    sentChats (send_to_telegram senv ids text) =
        (ids.filter (fun c => !(c == ""))).map pyStrip ∧
      "" ∈ sentChats (send_to_telegram senv ids text) := by
  refine ⟨sentChats_send senv ids text, ?_⟩
  rw [sentChats_send senv ids text]
  refine List.mem_map.2 ⟨w, ?_, hws⟩
  refine List.mem_filter.2 ⟨hw, ?_⟩
  simp [hne]

/-- Witness for C10: a whitespace-only entry leads to an attempt with the
empty recipient string. -/
theorem c10_witness :
    sentChats (send_to_telegram senvOk [" ", "x"] "t") =
        (([" ", "x"] : List String).filter (fun c => !(c == ""))).map pyStrip ∧
      "" ∈ sentChats (send_to_telegram senvOk [" ", "x"] "t") :=
  c10_strip_unstripped_blank senvOk [" ", "x"] "t" " " (by decide) (by decide) (by decide)

/-- C5 amended: header decoding uses the declared encoding and falls back to
UTF-8 only when the encoding is absent (or empty); an unknown declared
encoding or a strict decoding failure raises an exception that aborts
`parse_email` for this message (it is caught by the per-message handler in
the main loop), with no empty-string substitution for the header. -/
theorem c5_header_decode_amended (c : Codecs) (h2t : String → String) (msg : EmailMsg) :
    (∀ b, decodeHeaderChunk c (HeaderChunk.bytes b none) =
        decodeHeaderChunk c (HeaderChunk.bytes b (some "utf-8"))) ∧
      (decodeHeaderChunk c msg.subject = none → parse_email c h2t msg = none) ∧
      (decodeHeaderChunk c msg.sender = none → parse_email c h2t msg = none) := by
  refine ⟨fun b => rfl, fun h => ?_, fun h => ?_⟩
  · simp [parse_email, assembleMessage, h]
  · simp [parse_email, assembleMessage, h]

/-- A message whose Subject header bytes fail strict UTF-8 decoding (the
byte `0xFF`). -/
def msgBadSubject : EmailMsg :=
  ⟨.bytes [255] (some "utf-8"), .str "A", .leaf "text/plain" none none⟩

/-- Witness for the amended C5 at a concrete failing header. -/
theorem c5_witness : parse_email demoCodecs demoH2t msgBadSubject = none :=
  (c5_header_decode_amended demoCodecs demoH2t msgBadSubject).2.1 (by decide)

/-- C5 counterexample: a Subject header whose bytes fail strict decoding
makes `parse_email` raise (return `none`) instead of substituting an empty
string for the header; likewise a declared-but-unregistered encoding is not
replaced by UTF-8 but raises. -/
theorem c5_counterexample :
    decodeHeaderChunk demoCodecs (HeaderChunk.bytes [255] (some "utf-8")) = none ∧
      decodeHeaderChunk demoCodecs (HeaderChunk.bytes [104] (some "x-unknown")) = none ∧
      parse_email demoCodecs demoH2t msgBadSubject = none :=
  ⟨rfl, rfl, rfl⟩

/-- Scanning an appended part list composes. -/
theorem scanParts_append (c : Codecs) (a b : List EmailPart) (acc : String × String) :
    scanParts c (a ++ b) acc = scanParts c b (scanParts c a acc) := by
  induction a generalizing acc with
  | nil => rfl
  | cons p rest ih =>
    show scanParts c (rest ++ b) (scanStep c acc p) = _
    rw [ih]
    rfl

/-- One scan step keeps `body_plain` empty when the part is not a plain part
decoding to non-empty text. -/
theorem scanStep_fst (c : Codecs) (acc : String × String) (p : EmailPart)
    (hp : partCT p = "text/plain" → ∀ u, partDecode c p = some u → u = "")
    (h1 : acc.1 = "") : (scanStep c acc p).1 = "" := by
  unfold scanStep
  by_cases hct : partCT p = "text/plain" ∧ acc.1 = ""
  · rw [if_pos hct]
    cases hd : partDecode c p with
    | none => exact h1
    | some s => exact hp hct.1 s hd
  · rw [if_neg hct]
    by_cases hh : partCT p = "text/html" ∧ acc.2 = ""
    · rw [if_pos hh]
      cases hd : partDecode c p with
      | none => exact h1
      | some s => exact h1
    · rw [if_neg hh]
      exact h1

/-- `body_plain` stays empty over a whole scan when every plain part decodes
to empty text (or fails to decode). -/
theorem scanParts_fst_empty (c : Codecs) :
    ∀ (l : List EmailPart) (acc : String × String), acc.1 = "" →
      (∀ q ∈ l, partCT q = "text/plain" → ∀ u, partDecode c q = some u → u = "") →
      (scanParts c l acc).1 = "" := by
  intro l
  induction l with
  | nil => exact fun acc h _ => h
  | cons p rest ih =>
    intro acc h hall
    show (scanParts c rest (scanStep c acc p)).1 = ""
    exact ih (scanStep c acc p) (scanStep_fst c acc p (hall p (by simp)) h)
      (fun q hq => hall q (by simp [hq]))

/-- One scan step never overwrites a non-empty `body_plain`. -/
theorem scanStep_fst_stable (c : Codecs) (acc : String × String) (p : EmailPart)
    (h1 : acc.1 ≠ "") : (scanStep c acc p).1 = acc.1 := by
  unfold scanStep
  rw [if_neg (fun hct => h1 hct.2)]
  by_cases hh : partCT p = "text/html" ∧ acc.2 = ""
  · rw [if_pos hh]
    cases hd : partDecode c p with
    | none => rfl
    | some s => rfl
  · rw [if_neg hh]

/-- A whole scan never overwrites a non-empty `body_plain`. -/
theorem scanParts_fst_stable (c : Codecs) :
    ∀ (l : List EmailPart) (acc : String × String), acc.1 ≠ "" →
      (scanParts c l acc).1 = acc.1 := by
  intro l
  induction l with
  | nil => exact fun acc _ => rfl
  | cons p rest ih =>
    intro acc h
    show (scanParts c rest (scanStep c acc p)).1 = acc.1
    rw [ih _ (by rw [scanStep_fst_stable c acc p h]; exact h)]
    exact scanStep_fst_stable c acc p h

/-- One scan step keeps `body_html` empty when the part is not an HTML part
decoding to non-empty text. -/
theorem scanStep_snd (c : Codecs) (acc : String × String) (p : EmailPart)
    (hp : partCT p = "text/html" → ∀ u, partDecode c p = some u → u = "")
    (h2 : acc.2 = "") : (scanStep c acc p).2 = "" := by
  unfold scanStep
  by_cases hct : partCT p = "text/plain" ∧ acc.1 = ""
  · rw [if_pos hct]
    cases hd : partDecode c p with
    | none => exact h2
    | some s => exact h2
  · rw [if_neg hct]
    by_cases hh : partCT p = "text/html" ∧ acc.2 = ""
    · rw [if_pos hh]
      cases hd : partDecode c p with
      | none => exact h2
      | some s => exact hp hh.1 s hd
    · rw [if_neg hh]
      exact h2

/-- `body_html` stays empty over a whole scan when every HTML part decodes to
empty text (or fails to decode). -/
theorem scanParts_snd_empty (c : Codecs) :
    ∀ (l : List EmailPart) (acc : String × String), acc.2 = "" →
      (∀ q ∈ l, partCT q = "text/html" → ∀ u, partDecode c q = some u → u = "") →
      (scanParts c l acc).2 = "" := by
  intro l
  induction l with
  | nil => exact fun acc h _ => h
  | cons p rest ih =>
    intro acc h hall
    show (scanParts c rest (scanStep c acc p)).2 = ""
    exact ih (scanStep c acc p) (scanStep_snd c acc p (hall p (by simp)) h)
      (fun q hq => hall q (by simp [hq]))

/-- One scan step never overwrites a non-empty `body_html`. -/
theorem scanStep_snd_stable (c : Codecs) (acc : String × String) (p : EmailPart)
    (h2 : acc.2 ≠ "") : (scanStep c acc p).2 = acc.2 := by
  unfold scanStep
  by_cases hct : partCT p = "text/plain" ∧ acc.1 = ""
  · rw [if_pos hct]
    cases hd : partDecode c p with
    | none => rfl
    | some s => rfl
  · rw [if_neg hct]
    rw [if_neg (fun hh => h2 hh.2)]

/-- A whole scan never overwrites a non-empty `body_html`. -/
theorem scanParts_snd_stable (c : Codecs) :
    ∀ (l : List EmailPart) (acc : String × String), acc.2 ≠ "" →
      (scanParts c l acc).2 = acc.2 := by
  intro l
  induction l with
  | nil => exact fun acc _ => rfl
  | cons p rest ih =>
    intro acc h
    show (scanParts c rest (scanStep c acc p)).2 = acc.2
    rw [ih _ (by rw [scanStep_snd_stable c acc p h]; exact h)]
    exact scanStep_snd_stable c acc p h

/-- A plain part decoding successfully while `body_plain` is still empty sets
`body_plain` to the decoded text. -/
theorem scanStep_plain_hit (c : Codecs) (acc : String × String) (p : EmailPart) (s : String)
    (h1 : acc.1 = "") (hct : partCT p = "text/plain") (hd : partDecode c p = some s) :
    scanStep c acc p = (s, acc.2) := by
  unfold scanStep
  rw [if_pos ⟨hct, h1⟩, hd]

/-- An HTML part decoding successfully while `body_html` is still empty sets
`body_html` to the decoded text. -/
theorem scanStep_html_hit (c : Codecs) (acc : String × String) (p : EmailPart) (s : String)
    (h2 : acc.2 = "") (hct : partCT p = "text/html") (hd : partDecode c p = some s) :
    scanStep c acc p = (acc.1, s) := by
  unfold scanStep
  rw [if_neg (fun hc => by rw [hct] at hc; exact absurd hc.1 (by decide)),
    if_pos ⟨hct, h2⟩, hd]

/-- The `body_plain` result of a multipart walk is the first plain part that
decodes to non-empty text, when every earlier plain part decodes empty. -/
theorem bodyPair_plain (c : Codecs) (ct : String) (parts l₁ l₂ : List EmailPart)
    (p : EmailPart) (s : String)
    (hwalk : walk (.multi ct parts) = l₁ ++ p :: l₂)
    (hct : partCT p = "text/plain") (hd : partDecode c p = some s) (hs : s ≠ "")
    (hprev : ∀ q ∈ l₁, partCT q = "text/plain" → ∀ u, partDecode c q = some u → u = "") :
    (bodyPair c (.multi ct parts)).1 = s := by
  rw [bodyPair, hwalk, scanParts_append]
  have h1 : (scanParts c l₁ ("", "")).1 = "" :=
    scanParts_fst_empty c l₁ ("", "") rfl hprev
  show (scanParts c l₂ (scanStep c (scanParts c l₁ ("", "")) p)).1 = s
  rw [scanStep_plain_hit c _ p s h1 hct hd]
  exact scanParts_fst_stable c l₂ _ hs

/-- When every plain part of the walk decodes empty and `p` is the first HTML
part decoding to non-empty text, the walk ends with empty `body_plain` and
`body_html` equal to that text. -/
theorem bodyPair_html (c : Codecs) (ct : String) (parts l₁ l₂ : List EmailPart)
    (p : EmailPart) (s : String)
    (hwalk : walk (.multi ct parts) = l₁ ++ p :: l₂)
    (hplainAll : ∀ q ∈ walk (.multi ct parts),
      partCT q = "text/plain" → ∀ u, partDecode c q = some u → u = "")
    (hct : partCT p = "text/html") (hd : partDecode c p = some s) (hs : s ≠ "")
    (hprevHtml : ∀ q ∈ l₁, partCT q = "text/html" → ∀ u, partDecode c q = some u → u = "") :
    (bodyPair c (.multi ct parts)).1 = "" ∧ (bodyPair c (.multi ct parts)).2 = s := by
  constructor
  · rw [bodyPair]
    exact scanParts_fst_empty c _ _ rfl hplainAll
  · rw [bodyPair, hwalk, scanParts_append]
    have h2 : (scanParts c l₁ ("", "")).2 = "" :=
      scanParts_snd_empty c l₁ ("", "") rfl hprevHtml
    show (scanParts c l₂ (scanStep c (scanParts c l₁ ("", "")) p)).2 = s
    rw [scanStep_html_hit c _ p s h2 hct hd]
    exact scanParts_snd_stable c l₂ _ hs

/-- With both headers decoding successfully, `parse_email` is the truncated
template over the selected body. -/
theorem parse_email_eq (c : Codecs) (h2t : String → String) (msg : EmailMsg)
    (subj sndr : String)
    (hsubj : decodeHeaderChunk c msg.subject = some subj)
    (hsndr : decodeHeaderChunk c msg.sender = some sndr) :
    parse_email c h2t msg = some (truncateMessage (formatMessage sndr subj
      (if (bodyPair c msg.body).1 ≠ "" then (bodyPair c msg.body).1
        else if (bodyPair c msg.body).2 ≠ "" then h2t (bodyPair c msg.body).2 else ""))) := by
  rw [parse_email, assembleMessage, hsubj, hsndr]
  rfl

/-- C4 amended: for a multipart message whose depth-first walk contains a
plain-text part decoding to non-empty text (all earlier plain-text parts
decoding empty or failing), the output body is that plain part's text — the
HTML parts and the `html2text` rendering are ignored, as are all later
parts.  The unamended claim fails when every plain part decodes empty:
body selection tests decoded non-emptiness, not mere presence. -/
theorem c4_plain_priority_amended (c : Codecs) (h2t : String → String) (msg : EmailMsg)
    (ct : String) (parts l₁ l₂ : List EmailPart) (p : EmailPart) (s subj sndr : String)
    (hbody : msg.body = .multi ct parts)
    (hwalk : walk msg.body = l₁ ++ p :: l₂)
    (hct : partCT p = "text/plain") (hd : partDecode c p = some s) (hs : s ≠ "")
    (hprev : ∀ q ∈ l₁, partCT q = "text/plain" → ∀ u, partDecode c q = some u → u = "")
    (hsubj : decodeHeaderChunk c msg.subject = some subj)
    (hsndr : decodeHeaderChunk c msg.sender = some sndr) :
    parse_email c h2t msg = some (truncateMessage (formatMessage sndr subj s)) := by
  rw [parse_email_eq c h2t msg subj sndr hsubj hsndr, hbody]
  rw [hbody] at hwalk
  have hb1 : (bodyPair c (.multi ct parts)).1 = s :=
    bodyPair_plain c ct parts l₁ l₂ p s hwalk hct hd hs hprev
  rw [hb1, if_pos hs]

/-- Witness for the amended C4: plain part `"hi"`, HTML part present but
ignored. -/
theorem c4_witness :
    parse_email demoCodecs demoH2t msgPlainHtml =
      some (truncateMessage (formatMessage "A" "S" "hi")) := by
  refine c4_plain_priority_amended demoCodecs demoH2t msgPlainHtml
    "multipart/alternative" [EmailPart.leaf "text/plain" none (some [104, 105]), htmlPart1]
    [EmailPart.multi "multipart/alternative"
      [EmailPart.leaf "text/plain" none (some [104, 105]), htmlPart1]]
    [htmlPart1] (EmailPart.leaf "text/plain" none (some [104, 105])) "hi" "S" "A"
    rfl rfl rfl rfl (by decide) ?_ rfl rfl
  intro q hq hctq
  rw [List.mem_singleton] at hq
  subst hq
  exact absurd hctq (by decide)

/-- C4 counterexample: two multipart messages, each containing a plain-text
part (decoding to the empty string) and an HTML part, differing only in the
HTML part's payload, produce different outputs — so the HTML part is not
ignored and the output is not derived from the plain-text part only. -/
theorem c4_counterexample :
    parse_email demoCodecs demoH2t msgHtmlA ≠ parse_email demoCodecs demoH2t msgHtmlB := by
  decide

/-- C9: when every plain-text part of a multipart walk decodes to empty text
(or fails to decode) and `p` is the first HTML part decoding to non-empty
text, the output body is the `html2text` rendering of that HTML part: body
selection tests decoded non-emptiness, not whether a plain part was found. -/
theorem c9_html_fallback (c : Codecs) (h2t : String → String) (msg : EmailMsg)
    (ct : String) (parts l₁ l₂ : List EmailPart) (p : EmailPart) (s subj sndr : String)
    (hbody : msg.body = .multi ct parts)
    (hwalk : walk msg.body = l₁ ++ p :: l₂)
    (hplainAll : ∀ q ∈ walk msg.body,
      partCT q = "text/plain" → ∀ u, partDecode c q = some u → u = "")
    (hct : partCT p = "text/html") (hd : partDecode c p = some s) (hs : s ≠ "")
    (hprevHtml : ∀ q ∈ l₁, partCT q = "text/html" → ∀ u, partDecode c q = some u → u = "")
    (hsubj : decodeHeaderChunk c msg.subject = some subj)
    (hsndr : decodeHeaderChunk c msg.sender = some sndr) :
    parse_email c h2t msg = some (truncateMessage (formatMessage sndr subj (h2t s))) := by
  rw [parse_email_eq c h2t msg subj sndr hsubj hsndr, hbody]
  rw [hbody] at hwalk hplainAll
  obtain ⟨hb1, hb2⟩ :=
    bodyPair_html c ct parts l₁ l₂ p s hwalk hplainAll hct hd hs hprevHtml
  rw [hb1, hb2, if_neg (by simp), if_pos hs]

/-- Witness for C9: the plain part decodes empty, so the body is the rendered
HTML part `"hi"`. -/
theorem c9_witness :
    parse_email demoCodecs demoH2t msgHtmlA =
      some (truncateMessage (formatMessage "A" "S" (demoH2t "hi"))) := by
  refine c9_html_fallback demoCodecs demoH2t msgHtmlA
    "multipart/alternative" [plainEmptyPart, htmlPart1]
    [EmailPart.multi "multipart/alternative" [plainEmptyPart, htmlPart1], plainEmptyPart]
    [] htmlPart1 "hi" "S" "A"
    rfl rfl ?_ rfl rfl (by decide) ?_ rfl rfl
  · intro q hq hctq u hu
    have hwA : walk msgHtmlA.body =
        [EmailPart.multi "multipart/alternative" [plainEmptyPart, htmlPart1],
          plainEmptyPart, htmlPart1] := rfl
    rw [hwA] at hq
    simp only [List.mem_cons, List.not_mem_nil, or_false] at hq
    rcases hq with hq | hq | hq
    · subst hq
      exact absurd hctq (by decide)
    · subst hq
      injection hu with h
      exact h.symm
    · subst hq
      exact absurd hctq (by decide)
  · intro q hq hctq
    simp only [List.mem_cons, List.not_mem_nil, or_false] at hq
    rcases hq with hq | hq
    · subst hq
      exact absurd hctq (by decide)
    · subst hq
      exact absurd hctq (by decide)

/-- No store event is ever produced by the dispatcher. -/
theorem store_not_mem_send (senv : SendEnv) (cs : List String) (t : String) (j : Nat) :
    Ev.store j ∉ send_to_telegram senv cs t := by
  induction cs with
  | nil => simp [send_to_telegram]
  | cons c rest ih =>
    rw [send_to_telegram]
    by_cases hc : c = ""
    · rw [if_pos hc]
      exact ih
    · rw [if_neg hc]
      intro hmem
      rcases List.mem_cons.1 hmem with h | h
      · exact Ev.noConfusion h
      · rcases List.mem_append.1 h with h2 | h2
        · by_cases hok : senv.ok (pyStrip c) t = true
          · rw [if_pos hok] at h2
            exact absurd h2 (List.not_mem_nil _)
          · rw [if_neg hok] at h2
            exact Ev.noConfusion (List.mem_singleton.1 h2)
        · exact ih h2

/-- Fetch projection distributes over append. -/
theorem fetchedIds_append (a b : List Ev) :
    fetchedIds (a ++ b) = fetchedIds a ++ fetchedIds b := by
  simp [fetchedIds, List.filterMap_append]

/-- Store projection distributes over append. -/
theorem storedIds_append (a b : List Ev) :
    storedIds (a ++ b) = storedIds a ++ storedIds b := by
  simp [storedIds, List.filterMap_append]

/-- The dispatcher produces no fetch events. -/
theorem fetchedIds_send (senv : SendEnv) (cs : List String) (t : String) :
    fetchedIds (send_to_telegram senv cs t) = [] := by
  induction cs with
  | nil => rfl
  | cons c rest ih =>
    rw [send_to_telegram]
    by_cases hc : c = ""
    · rw [if_pos hc]
      exact ih
    · rw [if_neg hc]
      by_cases hok : senv.ok (pyStrip c) t = true
      · rw [if_pos hok]
        exact ih
      · rw [if_neg hok]
        exact ih

/-- The dispatcher produces no store events. -/
theorem storedIds_send (senv : SendEnv) (cs : List String) (t : String) :
    storedIds (send_to_telegram senv cs t) = [] := by
  induction cs with
  | nil => rfl
  | cons c rest ih =>
    rw [send_to_telegram]
    by_cases hc : c = ""
    · rw [if_pos hc]
      exact ih
    · rw [if_neg hc]
      by_cases hok : senv.ok (pyStrip c) t = true
      · rw [if_pos hok]
        exact ih
      · rw [if_neg hok]
        exact ih

/-- Shape of the per-message trace when the fetch call raises. -/
theorem processMessage_fetch_exn (env : CycleEnv) (chats : List String) (id : Nat)
    (b : Bool) (hf : env.fetchRes id = .exn b) :
    processMessage env chats id = [Ev.fetch id, Ev.msgErrLog id] := by
  simp [processMessage, hf]

/-- Shape of the per-message trace on a non-`OK` fetch status. -/
theorem processMessage_bad_status (env : CycleEnv) (chats : List String) (id : Nat)
    (st : String) (msg : EmailMsg) (hf : env.fetchRes id = .ok (st, msg))
    (hst : st ≠ "OK") :
    processMessage env chats id = [Ev.fetch id, Ev.fetchErrLog id] := by
  simp [processMessage, hf, hst]

/-- Shape of the per-message trace when `parse_email` raises. -/
theorem processMessage_parse_none (env : CycleEnv) (chats : List String) (id : Nat)
    (st : String) (msg : EmailMsg) (hf : env.fetchRes id = .ok (st, msg))
    (hst : st = "OK") (hp : parse_email env.codecs env.h2t msg = none) :
    processMessage env chats id = [Ev.fetch id, Ev.msgErrLog id] := by
  simp [processMessage, hf, hst, hp]

/-- Shape of the per-message trace when everything succeeds. -/
theorem processMessage_ok_store (env : CycleEnv) (chats : List String) (id : Nat)
    (st : String) (msg : EmailMsg) (text : String) (u : Unit)
    (hf : env.fetchRes id = .ok (st, msg)) (hst : st = "OK")
    (hp : parse_email env.codecs env.h2t msg = some text)
    (hsr : env.storeRes id = .ok u) :
    processMessage env chats id =
      Ev.fetch id :: (send_to_telegram env.send chats text ++ [Ev.store id]) := by
  simp [processMessage, hf, hst, hp, hsr]

/-- Shape of the per-message trace when the store call raises after dispatch. -/
theorem processMessage_store_exn (env : CycleEnv) (chats : List String) (id : Nat)
    (st : String) (msg : EmailMsg) (text : String) (b : Bool)
    (hf : env.fetchRes id = .ok (st, msg)) (hst : st = "OK")
    (hp : parse_email env.codecs env.h2t msg = some text)
    (hsr : env.storeRes id = .exn b) :
    processMessage env chats id =
      Ev.fetch id ::
        (send_to_telegram env.send chats text ++ [Ev.store id, Ev.msgErrLog id]) := by
  simp [processMessage, hf, hst, hp, hsr]

/-- Splitting an append around an element that occurs in neither side pin
down the suffix. -/
theorem append_cons_eq_of_not_mem {α : Type} (x : α) (a : List α) :
    ∀ (b c d : List α), x ∉ a → x ∉ b → a ++ x :: b = c ++ x :: d → b = d := by
  induction a with
  | nil =>
    intro b c d _ hxb heq
    cases c with
    | nil =>
      injection heq with h1 h2
    | cons y c' =>
      injection heq with h1 h2
      exfalso
      apply hxb
      rw [h2]
      exact List.mem_append_right c' (List.mem_cons_self x d)
  | cons z a' ih =>
    intro b c d hxa hxb heq
    cases c with
    | nil =>
      injection heq with h1 h2
      exfalso
      apply hxa
      rw [← h1]
      exact List.mem_cons_self z a'
    | cons y c' =>
      injection heq with h1 h2
      exact ih b c' d (fun h => hxa (List.mem_cons_of_mem z h)) hxb h2

/-- C1: in every per-message step of a poll cycle, the `store` call (the
read-flag update) happens if and only if the dispatch step completed — fetch
returned status `OK`, `parse_email` returned, and `send_to_telegram` always
returns — and no send attempt ever occurs after the store event; in
particular a raised parse (or fetch) exception means the message is not
marked read in that cycle. -/
theorem c1_mark_read_iff_dispatch (env : CycleEnv) (chats : List String) (id : Nat) :
    ((Ev.store id ∈ processMessage env chats id) ↔ dispatchOk env id = true) ∧
      (∀ l₁ l₂, processMessage env chats id = l₁ ++ Ev.store id :: l₂ →
        ∀ c t, Ev.send c t ∉ l₂) := by
  cases hf : env.fetchRes id with
  | exn b =>
    rw [processMessage_fetch_exn env chats id b hf]
    refine ⟨by simp [dispatchOk, hf], fun l₁ l₂ heq c t => ?_⟩
    have hmem : Ev.store id ∈ l₁ ++ Ev.store id :: l₂ :=
      List.mem_append_right l₁ (List.mem_cons_self _ _)
    rw [← heq] at hmem
    simp at hmem
  | ok pr =>
    obtain ⟨st, msg⟩ := pr
    by_cases hst : st = "OK"
    · cases hp : parse_email env.codecs env.h2t msg with
      | none =>
        rw [processMessage_parse_none env chats id st msg hf hst hp]
        refine ⟨by simp [dispatchOk, hf, hp], fun l₁ l₂ heq c t => ?_⟩
        have hmem : Ev.store id ∈ l₁ ++ Ev.store id :: l₂ :=
          List.mem_append_right l₁ (List.mem_cons_self _ _)
        rw [← heq] at hmem
        simp at hmem
      | some text =>
        have hdisp : dispatchOk env id = true := by simp [dispatchOk, hf, hst, hp]
        have hnot1 : Ev.store id ∉
            Ev.fetch id :: send_to_telegram env.send chats text := by
          intro hm
          rcases List.mem_cons.1 hm with h | h
          · exact Ev.noConfusion h
          · exact store_not_mem_send env.send chats text id h
        cases hsr : env.storeRes id with
        | ok u =>
          rw [processMessage_ok_store env chats id st msg text u hf hst hp hsr]
          constructor
          · exact ⟨fun _ => hdisp, fun _ =>
              List.mem_cons_of_mem _
                (List.mem_append_right _ (List.mem_cons_self _ _))⟩
          · intro l₁ l₂ heq c t hmem
            have key : (Ev.fetch id :: send_to_telegram env.send chats text) ++
                Ev.store id :: ([] : List Ev) = l₁ ++ Ev.store id :: l₂ := heq
            have hbd := append_cons_eq_of_not_mem (Ev.store id) _ _ _ _
              hnot1 (List.not_mem_nil _) key
            rw [← hbd] at hmem
            exact absurd hmem (List.not_mem_nil _)
        | exn b2 =>
          rw [processMessage_store_exn env chats id st msg text b2 hf hst hp hsr]
          constructor
          · exact ⟨fun _ => hdisp, fun _ =>
              List.mem_cons_of_mem _
                (List.mem_append_right _ (List.mem_cons_self _ _))⟩
          · intro l₁ l₂ heq c t hmem
            have key : (Ev.fetch id :: send_to_telegram env.send chats text) ++
                Ev.store id :: [Ev.msgErrLog id] = l₁ ++ Ev.store id :: l₂ := heq
            have hbd := append_cons_eq_of_not_mem (Ev.store id) _ _ _ _
              hnot1 (by simp) key
            rw [← hbd] at hmem
            simp at hmem
    · rw [processMessage_bad_status env chats id st msg hf hst]
      refine ⟨by simp [dispatchOk, hf, hst], fun l₁ l₂ heq c t => ?_⟩
      have hmem : Ev.store id ∈ l₁ ++ Ev.store id :: l₂ :=
        List.mem_append_right l₁ (List.mem_cons_self _ _)
      rw [← heq] at hmem
      simp at hmem

/-- Concrete environment in which every operation succeeds, with three
unread messages listed. -/
def envAllOk : CycleEnv :=
  { connect := true
    searchRes := .ok ("OK", [1, 2, 3])
    fetchRes := fun _ => .ok ("OK", msgSimple)
    storeRes := fun _ => .ok ()
    send := senvOk
    codecs := demoCodecs
    h2t := demoH2t }

/-- Witness for C1: a successfully dispatched message is marked read. -/
theorem c1_witness : Ev.store 7 ∈ processMessage envAllOk ["chat"] 7 :=
  (c1_mark_read_iff_dispatch envAllOk ["chat"] 7).1.mpr rfl

/-- Every per-message trace contains exactly one fetch event, for its own
identifier. -/
theorem fetchedIds_processMessage (env : CycleEnv) (chats : List String) (id : Nat) :
    fetchedIds (processMessage env chats id) = [id] := by
  cases hf : env.fetchRes id with
  | exn b =>
    rw [processMessage_fetch_exn env chats id b hf]
    rfl
  | ok pr =>
    obtain ⟨st, msg⟩ := pr
    by_cases hst : st = "OK"
    · cases hp : parse_email env.codecs env.h2t msg with
      | none =>
        rw [processMessage_parse_none env chats id st msg hf hst hp]
        rfl
      | some text =>
        cases hsr : env.storeRes id with
        | ok u =>
          rw [processMessage_ok_store env chats id st msg text u hf hst hp hsr]
          show id :: fetchedIds (send_to_telegram env.send chats text ++ [Ev.store id]) = [id]
          rw [fetchedIds_append, fetchedIds_send]
          rfl
        | exn b2 =>
          rw [processMessage_store_exn env chats id st msg text b2 hf hst hp hsr]
          show id :: fetchedIds (send_to_telegram env.send chats text ++
            [Ev.store id, Ev.msgErrLog id]) = [id]
          rw [fetchedIds_append, fetchedIds_send]
          rfl
    · rw [processMessage_bad_status env chats id st msg hf hst]
      rfl

/-- A per-message trace with completed dispatch stores exactly its own
identifier. -/
theorem storedIds_processMessage (env : CycleEnv) (chats : List String) (id : Nat)
    (h : dispatchOk env id = true) :
    storedIds (processMessage env chats id) = [id] := by
  cases hf : env.fetchRes id with
  | exn b =>
    rw [dispatchOk, hf] at h
    exact absurd h (by simp)
  | ok pr =>
    obtain ⟨st, msg⟩ := pr
    rw [dispatchOk, hf] at h
    rw [Bool.and_eq_true] at h
    have hst : st = "OK" := of_decide_eq_true h.1
    obtain ⟨text, hp⟩ := Option.isSome_iff_exists.1 h.2
    cases hsr : env.storeRes id with
    | ok u =>
      rw [processMessage_ok_store env chats id st msg text u hf hst hp hsr]
      show storedIds (send_to_telegram env.send chats text ++ [Ev.store id]) = [id]
      rw [storedIds_append, storedIds_send]
      rfl
    | exn b2 =>
      rw [processMessage_store_exn env chats id st msg text b2 hf hst hp hsr]
      show storedIds (send_to_telegram env.send chats text ++
        [Ev.store id, Ev.msgErrLog id]) = [id]
      rw [storedIds_append, storedIds_send]
      rfl

/-- The fetch events of the per-message loop list the processed identifiers
in order. -/
theorem fetchedIds_processList (env : CycleEnv) (chats : List String) :
    ∀ l : List Nat, fetchedIds (processList env chats l) = l := by
  intro l
  induction l with
  | nil => rfl
  | cons id rest ih =>
    show fetchedIds (processMessage env chats id ++ processList env chats rest) = id :: rest
    rw [fetchedIds_append, fetchedIds_processMessage, ih]
    rfl

/-- The store events of the per-message loop list the processed identifiers
in order, when every dispatch completes. -/
theorem storedIds_processList (env : CycleEnv) (chats : List String) :
    ∀ l : List Nat, (∀ id ∈ l, dispatchOk env id = true) →
      storedIds (processList env chats l) = l := by
  intro l
  induction l with
  | nil => exact fun _ => rfl
  | cons id rest ih =>
    intro hall
    show storedIds (processMessage env chats id ++ processList env chats rest) = id :: rest
    rw [storedIds_append, storedIds_processMessage env chats id (hall id (by simp)),
      ih (fun j hj => hall j (by simp [hj]))]
    rfl

/-- C8: in a cycle whose listing succeeds, messages are fetched in the
reverse of the listed order (newest first), and — when every dispatch
completes — marked read in that same reverse order. -/
theorem c8_newest_first (env : CycleEnv) (chats : List String) (ids : List Nat)
    (hc : env.connect = true) (hs : env.searchRes = .ok ("OK", ids)) (hne : ids ≠ []) :
    fetchedIds (cycle env chats) = ids.reverse ∧
      ((∀ id ∈ ids, dispatchOk env id = true) →
        storedIds (cycle env chats) = ids.reverse) := by
  have hcy : cycle env chats = Ev.connectOk :: Ev.search ::
      (processList env chats ids.reverse ++ [Ev.logout, Ev.sleep]) := by
    simp [cycle, hc, hs]
  constructor
  · rw [hcy]
    show fetchedIds (processList env chats ids.reverse ++ [Ev.logout, Ev.sleep]) =
      ids.reverse
    rw [fetchedIds_append, fetchedIds_processList]
    rw [show fetchedIds [Ev.logout, Ev.sleep] = [] from rfl, List.append_nil]
  · intro hall
    rw [hcy]
    show storedIds (processList env chats ids.reverse ++ [Ev.logout, Ev.sleep]) =
      ids.reverse
    rw [storedIds_append,
      storedIds_processList env chats ids.reverse
        (fun id hid => hall id (List.mem_reverse.1 hid)),
      show storedIds [Ev.logout, Ev.sleep] = [] from rfl, List.append_nil]

/-- Witness for C8: three listed messages are fetched and marked read
newest-first. -/
theorem c8_witness :
    fetchedIds (cycle envAllOk ["chat"]) = [3, 2, 1] ∧
      storedIds (cycle envAllOk ["chat"]) = [3, 2, 1] := by
  have h := c8_newest_first envAllOk ["chat"] [1, 2, 3] rfl rfl (by decide)
  exact ⟨h.1.trans (by decide), (h.2 (fun id _ => rfl)).trans (by decide)⟩

/-- C6 amended: on a non-`OK` listing status the cycle logs the search
error, performs no dispatch calls, attempts the logout — but the `continue`
statement skips the trailing sleep, so the next cycle begins immediately
rather than after the configured pause. -/
theorem c6_listing_failure_amended (env : CycleEnv) (chats : List String)
    (st : String) (ids : List Nat) (hc : env.connect = true)
    (hs : env.searchRes = .ok (st, ids)) (hst : st ≠ "OK") :
    cycle env chats = [Ev.connectOk, Ev.search, Ev.searchErrLog, Ev.logout] ∧
      sentChats (cycle env chats) = [] ∧ Ev.sleep ∉ cycle env chats := by
  have h1 : cycle env chats = [Ev.connectOk, Ev.search, Ev.searchErrLog, Ev.logout] := by
    simp [cycle, hc, hs, hst]
  refine ⟨h1, by rw [h1]; rfl, by rw [h1]; simp⟩

/-- Concrete environment whose listing returns a non-`OK` status. -/
def envListFail : CycleEnv :=
  { connect := true
    searchRes := .ok ("NO", [5])
    fetchRes := fun _ => .ok ("OK", msgSimple)
    storeRes := fun _ => .ok ()
    send := senvOk
    codecs := demoCodecs
    h2t := demoH2t }

/-- Witness for the amended C6 at a concrete failing listing. -/
theorem c6_witness :
    cycle envListFail ["chat"] = [Ev.connectOk, Ev.search, Ev.searchErrLog, Ev.logout] ∧
      sentChats (cycle envListFail ["chat"]) = [] ∧
      Ev.sleep ∉ cycle envListFail ["chat"] :=
  c6_listing_failure_amended envListFail ["chat"] "NO" [5] rfl rfl (by decide)

/-- C6 counterexample: in the non-`OK` listing cycle the logout is attempted
but no sleep event occurs — the claimed Sleeping step is skipped. -/
theorem c6_counterexample :
    Ev.logout ∈ cycle envListFail ["chat"] ∧ Ev.sleep ∉ cycle envListFail ["chat"] := by
  decide

end GmailBot
